import Mathlib

/-!
Shallow embedding of the ExportMap module of eslint-plugin-import-x
(file src/unnamed/part_000 of the analyzed repository).

Modelling conventions:
- JavaScript Map objects keyed by strings become association lists
  (`List (String × _)`); `Map.set` replaces in place, preserving the
  position of an existing key, which `mapSet` reproduces.
- The lazy resolver closures (`getImport`, the star-export thunks, the
  entries produced by `thunkFor`) always resolve a fixed file path through
  the process-wide cache.  They are modelled by storing that path and
  resolving it through a `Graph`, an association list from file path to
  the ExportMap that the thunk would return; a path absent from the graph
  models a thunk returning null (unanalyzable or unresolvable target).
- The deep queries can diverge in JavaScript (they are recursive over a
  possibly cyclic graph), so each one takes a fuel argument; the result
  `none` means the computation did not finish within the given fuel, and
  `some r` means the JavaScript function terminates with result r (adding
  fuel can never change a `some` into a different answer, only `none`
  into `some`).
- JavaScript distinction between undefined and null is kept explicit
  (`GetResult.undef` / `GetResult.nullValue`).
-/

set_option autoImplicit false

/-- A parse error pushed on `m.errors` (message, lineNumber, column). -/
structure ParseError where
  message : String
  lineNumber : Nat
  column : Nat
deriving DecidableEq, Repr

/-- A doctrine tag (title plus description), as used by the doc parsers. -/
structure Tag where
  title : String
  description : String
deriving DecidableEq, Repr

/-- A doctrine annotation: description and tags.  (Source type name is
the doctrine Annotation type; shortened here.) -/
structure DocAnnot where
  description : String
  tags : List Tag
deriving DecidableEq, Repr

/-- A comment node: whether its type is Block, and its text value. -/
structure Comment where
  isBlock : Bool
  value : String
deriving DecidableEq, Repr

/-- The metadata object stored in the namespace map for one export.
`doc` is the annotation attached by captureDoc; `nsSource` models the
lazily attached namespace getter (`addNamespace` or the
ExportNamespaceSpecifier branch): the import specifier the getter
resolves, when such a getter was attached. -/
structure ExportMeta where
  doc : Option DocAnnot := none
  nsSource : Option String := none
deriving DecidableEq, Repr

/-- One entry of `m.reexports`: the local name at the target module and
the resolved target path of the `getImport` thunk (`none` when the
specifier did not resolve, so the thunk returns null). -/
structure Reexport where
  localName : String
  target : Option String
deriving DecidableEq, Repr

/-- The DeclarationMetadata record stored in `imports` (the source
literal value, the imported specifier names, the dynamic flag and the
type-only flag). -/
structure DeclMeta where
  sourceValue : String
  importedSpecifiers : List String
  dynamic : Bool := false
  isOnlyImportingTypes : Bool := false
deriving DecidableEq, Repr

/-- One entry of `m.imports` (the getter is implied by the key path). -/
structure ImportEntry where
  declarations : List DeclMeta
deriving DecidableEq, Repr

/-- The parseGoal field: ambiguous, Module or Script. -/
inductive ParseGoal where
  | ambiguous
  | Module
  | Script
deriving DecidableEq, Repr

/-- The ExportMap class.  Field `ns` is the source field `namespace`
(a Lean keyword); `dependencies` stores the resolved path captured by
each star-export thunk; `mtime` is the modification timestamp stamped by
`ExportMap.for`. -/
structure ExportMap where
  path : String
  ns : List (String × ExportMeta) := []
  reexports : List (String × Reexport) := []
  dependencies : List String := []
  imports : List (String × ImportEntry) := []
  errors : List ParseError := []
  parseGoal : ParseGoal := ParseGoal.ambiguous
  doc : Option DocAnnot := none
  mtime : Nat := 0
deriving DecidableEq, Repr

/-- Association-list lookup, the model of `Map.get` / `Map.has`. -/
def lookupStr {α : Type} : List (String × α) → String → Option α
  | [], _ => none
  | (k, v) :: rest, key => if k = key then some v else lookupStr rest key

/-- `Map.set` semantics: replace in place, else append. -/
def mapSet {α : Type} : List (String × α) → String → α → List (String × α)
  | [], k, v => [(k, v)]
  | (k0, v0) :: rest, k, v =>
    if k0 = k then (k, v) :: rest else (k0, v0) :: mapSet rest k v

/-- `Set.add` semantics for a set of strings (insertion order kept). -/
def setAdd : List String → String → List String
  | [], p => [p]
  | q :: rest, p => if q = p then q :: rest else q :: setAdd rest p

/-- The cross-file resolution environment: what the thunk
`() => ExportMap.for(childContext(p, context))` returns for each path p.
A path absent from the graph models a thunk returning null. -/
abbrev Graph := List (String × ExportMap)

/-- Resolve one thunk through the graph. -/
def lookupG (g : Graph) (p : String) : Option ExportMap :=
  lookupStr g p

/-- Star-dependency loop of `has`: skip unresolved dependencies, return
true on the first dependency whose map reports the name.  There is no
same-path cycle guard in the source loop. -/
def hasDependenciesLoop (g : Graph) (query : ExportMap → Option Bool) :
    List String → Option Bool
  | [] => some false
  | p :: rest =>
    match lookupG g p with
    | none => hasDependenciesLoop g query rest
    | some innerMap =>
      match query innerMap with
      | none => none
      | some true => some true
      | some false => hasDependenciesLoop g query rest

/-- `ExportMap.has(name)`: locally namespaced, re-exported, or (unless
the name is default) reported by some star-dependency. -/
def ExportMap.has (g : Graph) : Nat → ExportMap → String → Option Bool
  | 0, _, _ => none
  | fuel + 1, m, name =>
    if (lookupStr m.ns name).isSome then some true
    else if (lookupStr m.reexports name).isSome then some true
    else if name ≠ "default" then
      hasDependenciesLoop g (fun inner => ExportMap.has g fuel inner name)
        m.dependencies
    else some false

/-- The result record of `hasDeep`: found flag plus the sequence of
ExportMaps traversed. -/
structure DeepResult where
  found : Bool
  path : List ExportMap
deriving DecidableEq, Repr

/-- Star-dependency loop of `hasDeep`.  An unresolved dependency makes
the whole query return found at the current map (the source returns
there, before its dead continue and before the same-path guard); a
dependency with the same path as the current map is skipped. -/
def hasDeepDependenciesLoop (g : Graph) (query : ExportMap → Option DeepResult)
    (self : ExportMap) : List String → Option DeepResult
  | [] => some { found := false, path := [self] }
  | p :: rest =>
    match lookupG g p with
    | none => some { found := true, path := [self] }
    | some innerMap =>
      if innerMap.path = self.path then
        hasDeepDependenciesLoop g query self rest
      else
        match query innerMap with
        | none => none
        | some innerValue =>
          if innerValue.found then
            some { innerValue with path := self :: innerValue.path }
          else hasDeepDependenciesLoop g query self rest

/-- `ExportMap.hasDeep(name)`: like has but follows re-export chains and
records the traversed maps; an unresolved re-export target counts as
found; a self re-export under the same name is cut as not found. -/
def ExportMap.hasDeep (g : Graph) : Nat → ExportMap → String → Option DeepResult
  | 0, _, _ => none
  | fuel + 1, m, name =>
    if (lookupStr m.ns name).isSome then some { found := true, path := [m] }
    else
      match lookupStr m.reexports name with
      | some reexports =>
        match reexports.target.bind (lookupG g) with
        | none => some { found := true, path := [m] }
        | some imported =>
          if imported.path = m.path ∧ reexports.localName = name then
            some { found := false, path := [m] }
          else
            match ExportMap.hasDeep g fuel imported reexports.localName with
            | none => none
            | some deep => some { deep with path := m :: deep.path }
      | none =>
        if name ≠ "default" then
          hasDeepDependenciesLoop g
            (fun inner => ExportMap.hasDeep g fuel inner name) m m.dependencies
        else some { found := false, path := [m] }

/-- Return domain of `get`: undefined, null, or an export metadata
value. -/
inductive GetResult where
  | undef
  | nullValue
  | val (v : ExportMeta)
deriving DecidableEq, Repr

/-- Star-dependency loop of `get`: unresolved dependencies are skipped,
same-path dependencies are skipped, the first non-undefined inner value
is returned. -/
def getDependenciesLoop (g : Graph) (query : ExportMap → Option GetResult)
    (selfPath : String) : List String → Option GetResult
  | [] => some GetResult.undef
  | p :: rest =>
    match lookupG g p with
    | none => getDependenciesLoop g query selfPath rest
    | some innerMap =>
      if innerMap.path = selfPath then getDependenciesLoop g query selfPath rest
      else
        match query innerMap with
        | none => none
        | some GetResult.undef => getDependenciesLoop g query selfPath rest
        | some r => some r

/-- `ExportMap.get(name)`: the export metadata, null when a re-export
target is unanalyzable, undefined when the name is absent. -/
def ExportMap.get (g : Graph) : Nat → ExportMap → String → Option GetResult
  | 0, _, _ => none
  | fuel + 1, m, name =>
    match lookupStr m.ns name with
    | some v => some (GetResult.val v)
    | none =>
      match lookupStr m.reexports name with
      | some reexports =>
        match reexports.target.bind (lookupG g) with
        | none => some GetResult.nullValue
        | some imported =>
          if imported.path = m.path ∧ reexports.localName = name then
            some GetResult.undef
          else ExportMap.get g fuel imported reexports.localName
      | none =>
        if name ≠ "default" then
          getDependenciesLoop g (fun inner => ExportMap.get g fuel inner name)
            m.path m.dependencies
        else some GetResult.undef

/-- The `hasDefault` getter: `this.get(default) != null`, which in
JavaScript is true exactly when get returned a real value (neither null
nor undefined). -/
def ExportMap.hasDefault (g : Graph) (fuel : Nat) (m : ExportMap) : Option Bool :=
  (ExportMap.get g fuel m "default").map (fun r =>
    match r with
    | GetResult.val _ => true
    | _ => false)

/-- Re-export section of `forEach`: for each re-export the callback gets
the value of `get` on the resolved target (undefined when the target is
unresolved) under the re-exported name. -/
def forEachReexports (g : Graph) (query : ExportMap → String → Option GetResult) :
    List (String × Reexport) → Option (List (GetResult × String))
  | [] => some []
  | (name, reexports) :: rest =>
    let value :=
      match reexports.target.bind (lookupG g) with
      | none => some GetResult.undef
      | some reexported => query reexported reexports.localName
    match value with
    | none => none
    | some v =>
      (forEachReexports g query rest).map (fun l => (v, name) :: l)

/-- Star-dependency section of `forEach`: unresolved dependencies are
skipped; each resolved dependency contributes its own forEach output
minus the name default.  There is no same-path guard in the source
loop. -/
def forEachDependencies (g : Graph)
    (query : ExportMap → Option (List (GetResult × String))) :
    List String → Option (List (GetResult × String))
  | [] => some []
  | p :: rest =>
    match lookupG g p with
    | none => forEachDependencies g query rest
    | some d =>
      match query d with
      | none => none
      | some inner =>
        match forEachDependencies g query rest with
        | none => none
        | some restL =>
          some ((inner.filter (fun pr => pr.2 ≠ "default")) ++ restL)

/-- `ExportMap.forEach(callback)`: the sequence of (value, name) pairs
the callback receives, in order: namespace entries, re-exports, then
star-dependency entries other than default. -/
def ExportMap.forEach (g : Graph) : Nat → ExportMap → Option (List (GetResult × String))
  | 0, _ => none
  | fuel + 1, m =>
    let nsPart := m.ns.map (fun p => (GetResult.val p.2, p.1))
    match forEachReexports g
        (fun reexported nm => ExportMap.get g fuel reexported nm) m.reexports with
    | none => none
    | some reexPart =>
      match forEachDependencies g (fun d => ExportMap.forEach g fuel d)
          m.dependencies with
      | none => none
      | some depsPart => some (nsPart ++ reexPart ++ depsPart)

/-! ## The annotation extractor (captureDoc, captureJsDoc) -/

/-- A candidate node handed to captureDoc: only its leading comments
matter.  `none` models a node for which neither the legacy
leadingComments property nor a range is available. -/
structure DocNode where
  leadingComments : Option (List Comment) := none
deriving DecidableEq, Repr

/-- One configured doc-style parser (the values of docStyleParsers). -/
abbrev StyleParsers := List (List Comment → Option DocAnnot)

/-- `captureDoc`: try the candidate nodes in order; the first node that
has (non-empty) leading comments stops the scan, and every configured
style parser runs over its comments, a later successful parser
overwriting the doc of an earlier one. -/
def captureDoc (docStyleParsers : StyleParsers) : List DocNode → Option DocAnnot
  | [] => none
  | n :: rest =>
    match n.leadingComments with
    | none => captureDoc docStyleParsers rest
    | some [] => captureDoc docStyleParsers rest
    | some leadingComments =>
      docStyleParsers.foldl (fun doc p =>
        match p leadingComments with
        | some d => some d
        | none => doc) none

/-- `captureJsDoc`: run doctrine over every Block comment; each
successful parse overwrites the previous doc, so the last parsing Block
comment wins.  `doctrineParse` models doctrine.parse, returning none
when it throws. -/
def captureJsDoc (doctrineParse : String → Option DocAnnot)
    (comments : List Comment) : Option DocAnnot :=
  comments.foldl (fun doc comment =>
    if comment.isBlock then
      match doctrineParse comment.value with
      | some d => some d
      | none => doc
    else doc) none

/-! ## The pattern walker (recursivePatternCapture) -/

/-- Destructuring patterns.  Object properties and array elements carry
a flag marking RestElement (and the legacy ExperimentalRestProperty),
whose argument is handed to the callback without further recursion. -/
inductive Pattern where
  | ident (name : String)
  | objectPat (props : List (Bool × Pattern))
  | arrayPat (elems : List (Option (Bool × Pattern)))
  | assignPat (left : Pattern)
  | otherPat

mutual

/-- `recursivePatternCapture`: the sequence of nodes handed to the
callback, one per bound leaf. -/
def recursivePatternCapture : Pattern → List Pattern
  | Pattern.ident n => [Pattern.ident n]
  | Pattern.objectPat props => rpcProps props
  | Pattern.arrayPat elems => rpcElems elems
  | Pattern.assignPat left => [left]
  | Pattern.otherPat => []

/-- Object-pattern property walk of recursivePatternCapture. -/
def rpcProps : List (Bool × Pattern) → List Pattern
  | [] => []
  | (isRest, p) :: rest =>
    (if isRest then [p] else recursivePatternCapture p) ++ rpcProps rest

/-- Array-pattern element walk of recursivePatternCapture (null elements
are skipped). -/
def rpcElems : List (Option (Bool × Pattern)) → List Pattern
  | [] => []
  | none :: rest => rpcElems rest
  | some (isRest, p) :: rest =>
    (if isRest then [p] else recursivePatternCapture p) ++ rpcElems rest

end

/-- The name under which a captured leaf is recorded: JavaScript reads
`id.name`, which exists only on Identifier nodes (on any other leaf the
Map key would be undefined and is invisible to every string query). -/
def patternLeafName : Pattern → Option String
  | Pattern.ident n => some n
  | _ => none

/-! ## The syntax tree as handed over by the external parser -/

/-- The argument of one dynamic import call site found by the tree walk
(both the ImportExpression form and the legacy call-expression form):
either a string literal or something that cannot be captured. -/
inductive DynImportArg where
  | lit (value : String)
  | nonLit
deriving DecidableEq

/-- Export and import specifiers, one closed sum for the kinds the
builder dispatches on.  `exportAllSpec` is the ExportAllDeclaration
node itself when it carries an exported name (export * as ns). -/
inductive Spec where
  | importSpecifier (imported : String) (importKindType : Bool)
  | importDefaultSpecifier (importKindType : Bool)
  | importNamespaceSpecifier (localName : String) (importKindType : Bool)
  | exportSpecifier (exported : String) (localName : String)
  | exportDefaultSpecifier (exported : String)
  | exportNamespaceSpecifier (exported : String)
  | exportAllSpec (exported : String) (sourceValue : String)

/-- Declarations carried by an ExportNamedDeclaration: either a
declaration with an id (function, class, interface, enum, type alias,
module declarations) or a variable declaration whose declarators carry
a pattern and the declarator node used as doc candidate. -/
inductive NamedDecl where
  | idDecl (name : String)
  | variableDeclaration (declarators : List (Pattern × DocNode))

/-- Top-level program statements, restricted to the kinds the builder
dispatches on; every other statement kind falls through to the no-op
default. -/
inductive Stmt where
  | exportDefaultDeclaration (declIdent : Option String) (node : DocNode)
  | exportAllDeclaration (source : Option String) (exported : Option String)
      (exportKindType : Bool)
  | importDeclaration (source : String) (importKindType : Bool)
      (specifiers : List Spec)
  | exportNamedDeclaration (source : Option String) (importKindType : Bool)
      (decl : Option NamedDecl) (specifiers : List Spec) (node : DocNode)
  | otherStatement

/-- The parsed program: top-level statements, the comment list, and the
dynamic-import call sites collected by the full-tree visit. -/
structure Ast where
  body : List Stmt
  comments : List Comment := []
  dynamicImports : List DynImportArg := []

/-- Modelled from the spec: isUnambiguousModule (utils/unambiguous, not
part of the analyzed sources) is the authoritative syntactic check,
true when the tree contains a top-level import or export declaration. -/
def isModuleDecl : Stmt → Bool
  | Stmt.exportDefaultDeclaration _ _ => true
  | Stmt.exportAllDeclaration _ _ _ => true
  | Stmt.importDeclaration _ _ _ => true
  | Stmt.exportNamedDeclaration _ _ _ _ _ => true
  | Stmt.otherStatement => false

/-- Modelled from the spec: the authoritative unambiguous-module check
over the parsed tree. -/
def isUnambiguousModule (ast : Ast) : Bool :=
  ast.body.any isModuleDecl

/-! ## The module-graph builder (ExportMap.parse) -/

/-- The external collaborators of ExportMap.parse: the parser, the
module resolver (`remotePath`, i.e. relative(value, path, settings)),
doctrine, the configured doc-style parsers, and the tsconfig
esModuleInterop lookup result. -/
structure BuildEnv where
  parser : String → String → Except ParseError Ast
  resolve : String → String → Option String
  doctrineParse : String → Option DocAnnot
  docStyleParsers : StyleParsers
  isEsModuleInterop : Bool

/-- processDynamicImport over the collected call sites: a literal source
that resolves is recorded in imports with a namespace-import provenance
marker and the dynamic flag (overwriting any previous entry for that
path); a non-literal or unresolvable source only raises the
hasDynamicImports flag, which the caller reads off the list itself. -/
def processDynamicImports (env : BuildEnv) (path : String) :
    ExportMap → List DynImportArg → ExportMap
  | m, [] => m
  | m, DynImportArg.nonLit :: rest => processDynamicImports env path m rest
  | m, DynImportArg.lit v :: rest =>
    match env.resolve v path with
    | none => processDynamicImports env path m rest
    | some p =>
      let declMeta : DeclMeta :=
        { sourceValue := v,
          importedSpecifiers := ["ImportNamespaceSpecifier"],
          dynamic := true }
      let entry : ImportEntry := { declarations := [declMeta] }
      processDynamicImports env path
        { m with imports := mapSet m.imports p entry } rest

/-- Module-doc collection: the first Block comment whose doctrine parse
carries a module tag becomes the file-level doc. -/
def collectModuleDoc (env : BuildEnv) : List Comment → Option DocAnnot
  | [] => none
  | c :: rest =>
    if c.isBlock then
      match env.doctrineParse c.value with
      | some doc =>
        if doc.tags.any (fun t => t.title = "module") then some doc
        else collectModuleDoc env rest
      | none => collectModuleDoc env rest
    else collectModuleDoc env rest

/-- Mutable state threaded through the statement walk: the map under
construction and the namespaces Map (local name of a namespace import
to its source specifier). -/
structure BuildState where
  m : ExportMap
  namespaces : List (String × String) := []

/-- `addNamespace`: attach the lazy namespace getter when the identifier
is a known namespace-import binding. -/
def addNamespace (meta : ExportMeta) (identName : String)
    (namespaces : List (String × String)) : ExportMeta :=
  match lookupStr namespaces identName with
  | none => meta
  | some src => { meta with nsSource := some src }

/-- `captureDependency`: resolve the source of an import, star-export or
named re-export; on success record a DeclarationMetadata under the
resolved path in imports (appending to the declaration set of an
existing entry) and return the resolved path of the shared getter. -/
def captureDependency (env : BuildEnv) (path : String) (m : ExportMap)
    (source : Option String) (isOnlyImportingTypes : Bool)
    (importedSpecifiers : List String) : Option String × ExportMap :=
  match source with
  | none => (none, m)
  | some sv =>
    match env.resolve sv path with
    | none => (none, m)
    | some p =>
      let declarationMetadata : DeclMeta :=
        { sourceValue := sv, isOnlyImportingTypes, importedSpecifiers }
      match lookupStr m.imports p with
      | some existing =>
        let entry : ImportEntry :=
          { declarations := existing.declarations ++ [declarationMetadata] }
        (some p, { m with imports := mapSet m.imports p entry })
      | none =>
        let entry : ImportEntry := { declarations := [declarationMetadata] }
        (some p, { m with imports := mapSet m.imports p entry })

/-- Does this specifier carry importKind type (or typeof)? Export
specifiers have no importKind, hence false. -/
def specImportKindType : Spec → Bool
  | Spec.importSpecifier _ t => t
  | Spec.importDefaultSpecifier t => t
  | Spec.importNamespaceSpecifier _ t => t
  | _ => false

/-- The importedSpecifiers Set collected by
captureDependencyWithSpecifiers: imported names of ImportSpecifier
nodes, and the type tag for default and namespace import specifiers. -/
def collectImportedSpecifiers (specifiers : List Spec) : List String :=
  specifiers.foldl (fun acc s =>
    match s with
    | Spec.importSpecifier imported _ => setAdd acc imported
    | Spec.importDefaultSpecifier _ => setAdd acc "ImportDefaultSpecifier"
    | Spec.importNamespaceSpecifier _ _ => setAdd acc "ImportNamespaceSpecifier"
    | _ => acc) []

/-- `captureDependencyWithSpecifiers`: a declaration is type-only when
its own importKind is type, or when it has specifiers and every one of
them is type-only. -/
def captureDependencyWithSpecifiers (env : BuildEnv) (path : String)
    (m : ExportMap) (source : Option String) (declarationIsType : Bool)
    (specifiers : List Spec) : Option String × ExportMap :=
  let specifiersOnlyImportingTypes :=
    specifiers.length > 0 && specifiers.all specImportKindType
  captureDependency env path m source
    (declarationIsType || specifiersOnlyImportingTypes)
    (collectImportedSpecifiers specifiers)

/-- JavaScript falsiness of the captured source value (absent or the
empty string). -/
def falsyStr : Option String → Bool
  | none => true
  | some s => s = ""

/-- `processSpecifier`: dispatch over one export specifier of a
declaration whose source value is `nsource` (hasSourceNode tells whether
the declaration carries a source node at all, the check used for
ExportSpecifier). -/
def processSpecifier (env : BuildEnv) (path : String)
    (namespaces : List (String × String)) (hasSourceNode : Bool)
    (nsource : Option String) (m : ExportMap) (s : Spec) : ExportMap :=
  match s with
  | Spec.exportDefaultSpecifier exported =>
    if falsyStr nsource then m
    else
      let entry : Reexport :=
        { localName := "default",
          target := nsource.bind (fun v => env.resolve v path) }
      { m with reexports := mapSet m.reexports exported entry }
  | Spec.exportNamespaceSpecifier exported =>
    let exportMeta : ExportMeta := { nsSource := nsource }
    { m with ns := mapSet m.ns exported exportMeta }
  | Spec.exportAllSpec exported sourceValue =>
    { m with ns := mapSet m.ns exported (addNamespace {} sourceValue namespaces) }
  | Spec.exportSpecifier exported localName =>
    if hasSourceNode then
      let entry : Reexport :=
        { localName := localName,
          target := nsource.bind (fun v => env.resolve v path) }
      { m with reexports := mapSet m.reexports exported entry }
    else
      { m with ns := mapSet m.ns exported (addNamespace {} localName namespaces) }
  | _ => m

/-- Find the local name bound by an ImportNamespaceSpecifier, if any. -/
def findNamespaceSpecifier : List Spec → Option String
  | [] => none
  | Spec.importNamespaceSpecifier localName _ :: _ => some localName
  | _ :: rest => findNamespaceSpecifier rest

/-- Variable-declaration capture: every leaf of every declarator pattern
is recorded in the namespace with captureDoc over the declarator node
then the statement node. -/
def processVarDeclarators (env : BuildEnv) (stmtNode : DocNode)
    (declarators : List (Pattern × DocNode)) (m : ExportMap) : ExportMap :=
  declarators.foldl (fun m d =>
    (recursivePatternCapture d.1).foldl (fun m leaf =>
      match patternLeafName leaf with
      | some nm =>
        let meta : ExportMeta :=
          { doc := captureDoc env.docStyleParsers [d.2, stmtNode] }
        { m with ns := mapSet m.ns nm meta }
      | none => m) m) m

/-- One step of the top-level statement walk of ExportMap.parse. -/
def processStatement (env : BuildEnv) (path : String) (st : BuildState)
    (n : Stmt) : BuildState :=
  match n with
  | Stmt.exportDefaultDeclaration declIdent node =>
    let exportMeta : ExportMeta := { doc := captureDoc env.docStyleParsers [node] }
    let exportMeta :=
      match declIdent with
      | some id => addNamespace exportMeta id st.namespaces
      | none => exportMeta
    { st with m := { st.m with ns := mapSet st.m.ns "default" exportMeta } }
  | Stmt.exportAllDeclaration source exported exportKindType =>
    let (getter, m1) := captureDependency env path st.m source exportKindType []
    let m2 :=
      match getter with
      | some p => { m1 with dependencies := setAdd m1.dependencies p }
      | none => m1
    let m3 :=
      match exported with
      | some name =>
        processSpecifier env path st.namespaces true source m2
          (Spec.exportAllSpec name (source.getD ""))
      | none => m2
    { st with m := m3 }
  | Stmt.importDeclaration source importKindType specifiers =>
    let m1 := (captureDependencyWithSpecifiers env path st.m (some source)
      importKindType specifiers).2
    let namespaces1 :=
      match findNamespaceSpecifier specifiers with
      | some localName => mapSet st.namespaces localName source
      | none => st.namespaces
    { m := m1, namespaces := namespaces1 }
  | Stmt.exportNamedDeclaration source importKindType decl specifiers node =>
    let m1 := (captureDependencyWithSpecifiers env path st.m source
      importKindType specifiers).2
    let m2 :=
      match decl with
      | some (NamedDecl.idDecl name) =>
        let meta : ExportMeta :=
          { doc := captureDoc env.docStyleParsers [node] }
        { m1 with ns := mapSet m1.ns name meta }
      | some (NamedDecl.variableDeclaration declarators) =>
        processVarDeclarators env node declarators m1
      | none => m1
    let m3 := specifiers.foldl
      (processSpecifier env path st.namespaces source.isSome source) m2
    { st with m := m3 }
  | Stmt.otherStatement => st

/-- The full top-level statement walk. -/
def processStatements (env : BuildEnv) (path : String) (st : BuildState)
    (body : List Stmt) : BuildState :=
  body.foldl (processStatement env path) st

/-- `ExportMap.parse(path, content, context)`: parse failure yields a
map with only the recorded error; a file neither unambiguously a module
nor containing a dynamic import yields null; otherwise the statement
walk populates the map, the interop fix-up synthesizes an empty default
when esModuleInterop is on and some export exists without an explicit
default, and parseGoal becomes Module exactly when the unambiguous
check passed. -/
def ExportMap.parse (env : BuildEnv) (path content : String) : Option ExportMap :=
  let m0 : ExportMap := { path := path }
  match env.parser path content with
  | Except.error err => some { m0 with errors := [err] }
  | Except.ok ast =>
    let hasDynamicImports := !ast.dynamicImports.isEmpty
    let m1 := processDynamicImports env path m0 ast.dynamicImports
    let unambiguouslyESM := isUnambiguousModule ast
    if !unambiguouslyESM && !hasDynamicImports then none
    else
      let m2 := { m1 with doc := collectModuleDoc env ast.comments }
      let st := processStatements env path { m := m2 } ast.body
      let m3 := st.m
      let m4 :=
        if env.isEsModuleInterop && decide (m3.ns.length > 0)
            && !(lookupStr m3.ns "default").isSome then
          { m3 with ns := mapSet m3.ns "default" {} }
        else m3
      let m5 :=
        if unambiguouslyESM then { m4 with parseGoal := ParseGoal.Module }
        else m4
      some m5

/-! ## The resolution cache (ExportMap.for) -/

/-- Observable side effects of one ExportMap.for call, in order: the
stat call, the two fast-reject filters, the content read, the regex
heuristic, and running the parser. -/
inductive Effect where
  | statFs (path : String)
  | extCheck (path : String)
  | ignoreCheck (path : String)
  | readFile (path : String)
  | regexCheck (path : String)
  | parseRun (path : String)
deriving DecidableEq, Repr

/-- The filesystem and filter collaborators of ExportMap.for; the
context arguments of the filters are folded into the functions. -/
structure FsEnv where
  mtime : String → Nat
  readContent : String → String
  hasValidExtension : String → Bool
  ignored : String → Bool
  isMaybeUnambiguousModule : String → Bool

/-- The reduced child context: the composite cache key (childContext
always supplies one; the hash fallback for bare rule contexts is folded
into the field) and the file path. -/
structure ChildCtx where
  cacheKey : String
  path : String

/-- The process-wide exportCache: key to null sentinel (`some none`) or
built map (`some (some m)`); an absent key is a miss. -/
abbrev ExportCache := List (String × Option ExportMap)

/-- The rebuild arm of ExportMap.for: fast-reject filters, content
read, regex heuristic, then the builder; every rejection stores the
null sentinel; a successful build is stamped with the current
modification time and stored. -/
def rebuildFor (fsEnv : FsEnv) (env : BuildEnv) (context : ChildCtx)
    (exportCache : ExportCache) (effs : List Effect) (statsMtime : Nat) :
    Option ExportMap × ExportCache × List Effect :=
  let path := context.path
  let cacheKey := context.cacheKey
  let effs := effs ++ [Effect.extCheck path]
  if !fsEnv.hasValidExtension path then
    (none, mapSet exportCache cacheKey none, effs)
  else
    let effs := effs ++ [Effect.ignoreCheck path]
    if fsEnv.ignored path then
      (none, mapSet exportCache cacheKey none, effs)
    else
      let content := fsEnv.readContent path
      let effs := effs ++ [Effect.readFile path, Effect.regexCheck path]
      if !fsEnv.isMaybeUnambiguousModule content then
        (none, mapSet exportCache cacheKey none, effs)
      else
        let effs := effs ++ [Effect.parseRun path]
        match ExportMap.parse env path content with
        | none => (none, mapSet exportCache cacheKey none, effs)
        | some exportMap =>
          let exportMap := { exportMap with mtime := statsMtime }
          (some exportMap, mapSet exportCache cacheKey (some exportMap), effs)

/-- `ExportMap.for(context)` (named forCtx because for is a Lean
keyword): a cached null sentinel returns null before any filesystem
access; a cached map whose stored modification time equals the current
one is returned as is after only the stat call; otherwise the map is
(re)built.  The returned triple is (result, updated cache, effects). -/
def ExportMap.forCtx (fsEnv : FsEnv) (env : BuildEnv) (context : ChildCtx)
    (exportCache : ExportCache) : Option ExportMap × ExportCache × List Effect :=
  match lookupStr exportCache context.cacheKey with
  | some none => (none, exportCache, [])
  | some (some exportMap) =>
    if exportMap.mtime = fsEnv.mtime context.path then
      (some exportMap, exportCache, [Effect.statFs context.path])
    else
      rebuildFor fsEnv env context exportCache [Effect.statFs context.path]
        (fsEnv.mtime context.path)
  | none =>
    rebuildFor fsEnv env context exportCache [Effect.statFs context.path]
      (fsEnv.mtime context.path)


/-! ## General lemmas about the association-list model -/

/-- Membership in an association list makes lookup succeed. -/
theorem lookupStr_isSome_of_mem {α : Type} {l : List (String × α)} {k : String}
    {v : α} (h : (k, v) ∈ l) : (lookupStr l k).isSome := by
  induction l with
  | nil => cases h
  | cons hd tl ih =>
    cases hd with
    | mk k0 v0 =>
      by_cases hk : k0 = k
      · simp [lookupStr, hk]
      · simp only [lookupStr]
        rw [if_neg hk]
        cases h with
        | head => exact absurd rfl hk
        | tail _ hmem => exact ih hmem

/-- Looking up the key just set returns the value just set. -/
theorem lookupStr_mapSet_self {α : Type} (l : List (String × α)) (k : String)
    (v : α) : lookupStr (mapSet l k v) k = some v := by
  induction l with
  | nil => simp [mapSet, lookupStr]
  | cons hd tl ih =>
    cases hd with
    | mk k0 v0 =>
      by_cases hk : k0 = k
      · simp [mapSet, hk, lookupStr]
      · simp only [mapSet]
        rw [if_neg hk, lookupStr, if_neg hk]
        exact ih

/-- Every pair produced by the star-dependency section of forEach has a
name other than default. -/
theorem forEachDependencies_ne_default (g : Graph)
    (query : ExportMap → Option (List (GetResult × String))) :
    ∀ deps l, forEachDependencies g query deps = some l →
      ∀ v n, (v, n) ∈ l → n ≠ "default" := by
  intro deps
  induction deps with
  | nil =>
    intro l h v n hm
    simp only [forEachDependencies] at h
    cases h
    cases hm
  | cons p rest ih =>
    intro l h v n hm
    simp only [forEachDependencies] at h
    split at h
    · exact ih l h v n hm
    · split at h
      · cases h
      · split at h
        · cases h
        · rename_i inner hq restL hr
          cases h
          rcases List.mem_append.mp hm with hin | hin
          · have := List.mem_filter.mp hin
            simpa using this.2
          · exact ih restL hr v n hin

/-- Every pair produced by the re-export section of forEach is named by
a key of the reexports map. -/
theorem forEachReexports_mem (g : Graph)
    (query : ExportMap → String → Option GetResult) :
    ∀ rees l, forEachReexports g query rees = some l →
      ∀ v n, (v, n) ∈ l → (lookupStr rees n).isSome := by
  intro rees
  induction rees with
  | nil =>
    intro l h v n hm
    simp only [forEachReexports] at h
    cases h
    cases hm
  | cons hd tl ih =>
    intro l h v n hm
    cases hd with
    | mk name reex =>
      simp only [forEachReexports] at h
      split at h
      · cases h
      · rename_i v0 hv
        cases hr : forEachReexports g query tl with
        | none => rw [hr] at h; cases h
        | some l0 =>
          rw [hr] at h
          simp only [Option.map] at h
          cases h
          cases hm with
          | head =>
            simp [lookupStr]
          | tail _ hin =>
            by_cases hn : name = n
            · simp [lookupStr, hn]
            · simp only [lookupStr]
              rw [if_neg hn]
              exact ih l0 hr v n hin

/-! ## C1: star-exports never propagate the default export -/

/-- Fixture for C1: the build environment of a file b whose only
statement star-exports from file a. -/
def c1EnvB : BuildEnv :=
  { parser := fun _ _ =>
      Except.ok { body := [Stmt.exportAllDeclaration (some "./a") none false] },
    resolve := fun s _ => if s = "./a" then some "a" else none,
    doctrineParse := fun _ => none,
    docStyleParsers := [],
    isEsModuleInterop := false }

/-- Fixture for C1: the declaration record the builder stores for the
star-export of b. -/
def c1DeclA : DeclMeta := { sourceValue := "./a", importedSpecifiers := [] }

/-- Fixture for C1: the map the builder produces for file b. -/
def c1MapB : ExportMap :=
  { path := "b",
    dependencies := ["a"],
    imports := [("a", { declarations := [c1DeclA] })],
    parseGoal := ParseGoal.Module }

/-- Fixture for C1: the map of file a, exporting default and x. -/
def c1MapA : ExportMap :=
  { path := "a", ns := [("default", {}), ("x", {})] }

/-- Fixture for C1: the two-file graph of the star-export example. -/
def c1Graph : Graph := [("a", c1MapA), ("b", c1MapB)]

/-- C1: default exports never propagate through star-exports.  For the
concrete pair of files (a exporting default and x, b built by the
module-graph builder from a file that only star-exports from a), has on
b answers false for default and true for x.  In general, when the name
default is neither locally namespaced nor re-exported, has answers
false, hasDeep answers not found and get answers undefined without
consulting any star-dependency, and forEach only ever emits the name
default from the local namespace or the re-export section, never from a
star-dependency. -/
theorem c1_star_default_not_propagated (g : Graph) (fuel : Nat) (m : ExportMap)
    (h1 : lookupStr m.ns "default" = none)
    (h2 : lookupStr m.reexports "default" = none) :
    ExportMap.parse c1EnvB "b" "export star from a" = some c1MapB ∧
    ExportMap.has c1Graph 2 c1MapB "default" = some false ∧
    ExportMap.has c1Graph 2 c1MapB "x" = some true ∧
    ExportMap.has g (fuel + 1) m "default" = some false ∧
    ExportMap.hasDeep g (fuel + 1) m "default" =
      some { found := false, path := [m] } ∧
    ExportMap.get g (fuel + 1) m "default" = some GetResult.undef ∧
    (∀ g2 f2 m2 l v, ExportMap.forEach g2 (f2 + 1) m2 = some l →
      (v, "default") ∈ l →
      (lookupStr m2.ns "default").isSome ∨
        (lookupStr m2.reexports "default").isSome) := by
  refine ⟨by decide, by decide, by decide, ?_, ?_, ?_, ?_⟩
  · simp [ExportMap.has, h1, h2]
  · simp [ExportMap.hasDeep, h1, h2]
  · simp [ExportMap.get, h1, h2]
  · intro g2 f2 m2 l v h hm
    simp only [ExportMap.forEach] at h
    split at h
    · cases h
    · rename_i reexPart hr
      split at h
      · cases h
      · rename_i depsPart hd
        cases h
        rcases List.mem_append.mp hm with hin | hin
        · rcases List.mem_append.mp hin with hns | hre
          · left
            rcases List.mem_map.mp hns with ⟨p, hp, he⟩
            have hp1 : p.1 = "default" := congrArg Prod.snd he
            have hpm : ("default", p.2) ∈ m2.ns := by
              rw [← hp1]
              simpa using hp
            exact lookupStr_isSome_of_mem hpm
          · right
            exact forEachReexports_mem g2 _ m2.reexports reexPart hr v "default" hre
        · exact absurd rfl
            (forEachDependencies_ne_default g2 _ m2.dependencies depsPart hd
              v "default" hin)

/-- Witness for C1: the generic part applied to a concrete empty map. -/
theorem c1_witness :
    ExportMap.has [] 1 { path := "w" } "default" = some false :=
  (c1_star_default_not_propagated [] 0 { path := "w" } rfl rfl).2.2.2.1

/-! ## C2: self re-export cycle under the same name -/

/-- Fixture for C2: build environment of a file a that re-exports x
from itself. -/
def c2Env : BuildEnv :=
  { parser := fun _ _ => Except.ok
      { body := [Stmt.exportNamedDeclaration (some "./a") false none
          [Spec.exportSpecifier "x" "x"] {}] },
    resolve := fun s _ => if s = "./a" then some "a" else none,
    doctrineParse := fun _ => none,
    docStyleParsers := [],
    isEsModuleInterop := false }

/-- Fixture for C2: the declaration record stored for the self
re-export. -/
def c2Decl : DeclMeta := { sourceValue := "./a", importedSpecifiers := [] }

/-- Fixture for C2: the map the builder produces for the degenerate
self re-export file. -/
def c2Map : ExportMap :=
  { path := "a",
    reexports := [("x", { localName := "x", target := some "a" })],
    imports := [("a", { declarations := [c2Decl] })],
    parseGoal := ParseGoal.Module }

/-- Fixture for C2: the one-file graph of the self re-export example. -/
def c2Graph : Graph := [("a", c2Map)]

/-- C2: when a name is bound in reexports under the same local name and
the re-export resolver yields a map with the file path of the current
map itself, hasDeep stops with found false and path equal to the
singleton of the current map, and get stops with undefined, instead of
recursing.  The concrete self re-export file builds to c2Map, on which
the witness instantiates this theorem. -/
theorem c2_self_cycle_guard (g : Graph) (fuel : Nat) (m imported : ExportMap)
    (n : String) (re : Reexport)
    (h1 : lookupStr m.ns n = none)
    (h2 : lookupStr m.reexports n = some re)
    (h3 : re.localName = n)
    (h4 : re.target.bind (lookupG g) = some imported)
    (h5 : imported.path = m.path) :
    ExportMap.parse c2Env "a" "reexport x from self" = some c2Map ∧
    ExportMap.hasDeep g (fuel + 1) m n = some { found := false, path := [m] } ∧
    ExportMap.get g (fuel + 1) m n = some GetResult.undef := by
  refine ⟨by decide, ?_, ?_⟩
  · simp [ExportMap.hasDeep, h1, h2, h3, h4, h5]
  · simp [ExportMap.get, h1, h2, h3, h4, h5]

/-- Witness for C2: the guard fires on the map built from the file that
re-exports x from itself. -/
theorem c2_witness :
    ExportMap.hasDeep c2Graph 1 c2Map "x" = some { found := false, path := [c2Map] } ∧
    ExportMap.get c2Graph 1 c2Map "x" = some GetResult.undef :=
  ⟨(c2_self_cycle_guard c2Graph 0 c2Map c2Map "x"
      { localName := "x", target := some "a" }
      rfl (by decide) rfl (by decide) rfl).2.1,
   (c2_self_cycle_guard c2Graph 0 c2Map c2Map "x"
      { localName := "x", target := some "a" }
      rfl (by decide) rfl (by decide) rfl).2.2⟩

/-! ## C4: unresolved re-export target, null versus undefined -/

/-- Fixture for C4: a chain p to q (through a re-export renaming n to
n2) and a star-dependency of q on r, where no module exports the
requested name anywhere. -/
def c4MapR : ExportMap := { path := "r" }

/-- Fixture for C4: the intermediate module q of the absent-name chain. -/
def c4MapQ : ExportMap := { path := "q", dependencies := ["r"] }

/-- Fixture for C4: the entry module p of the absent-name chain. -/
def c4MapP : ExportMap :=
  { path := "p",
    reexports := [("n", { localName := "n2", target := some "q" })] }

/-- Fixture for C4: the graph of the absent-name chain. -/
def c4Graph : Graph := [("p", c4MapP), ("q", c4MapQ), ("r", c4MapR)]

/-- C4: when a name is bound in reexports but absent from the local
namespace and the re-export resolver returns null, hasDeep optimistically
answers found at the current map and get answers the explicit null; on
the concrete chain where no module anywhere exports the name, get
answers undefined, so callers can tell an unanalyzable target (null)
from an absent name (undefined). -/
theorem c4_unresolved_reexport_found (g : Graph) (fuel : Nat) (m : ExportMap)
    (n : String) (re : Reexport)
    (h1 : lookupStr m.ns n = none)
    (h2 : lookupStr m.reexports n = some re)
    (h3 : re.target.bind (lookupG g) = none) :
    ExportMap.hasDeep g (fuel + 1) m n = some { found := true, path := [m] } ∧
    ExportMap.get g (fuel + 1) m n = some GetResult.nullValue ∧
    ExportMap.get c4Graph 3 c4MapP "n" = some GetResult.undef := by
  refine ⟨?_, ?_, by decide⟩
  · simp [ExportMap.hasDeep, h1, h2, h3]
  · simp [ExportMap.get, h1, h2, h3]

/-- Fixture for C4: a map re-exporting y from an unresolvable target. -/
def c4MapU : ExportMap :=
  { path := "u", reexports := [("y", { localName := "y", target := none })] }

/-- Witness for C4: the unresolvable-target case at a concrete map. -/
theorem c4_witness :
    ExportMap.hasDeep [] 1 c4MapU "y" = some { found := true, path := [c4MapU] } ∧
    ExportMap.get [] 1 c4MapU "y" = some GetResult.nullValue :=
  ⟨(c4_unresolved_reexport_found [] 0 c4MapU "y"
      { localName := "y", target := none } rfl (by decide) rfl).1,
   (c4_unresolved_reexport_found [] 0 c4MapU "y"
      { localName := "y", target := none } rfl (by decide) rfl).2.1⟩

/-! ## C10: hasDefault is strictly stronger than has(default) -/

/-- Fixture for C10: a map whose only default is re-exported from an
unanalyzable module. -/
def c10Map : ExportMap :=
  { path := "p",
    reexports := [("default", { localName := "default", target := none })] }

/-- C10: hasDefault answers true exactly when get(default) returns a
real value (neither null nor undefined), and hasDefault true forces
has(default) true; on the concrete map whose default is re-exported
from an unanalyzable module, has(default) is true while hasDefault is
false, so hasDefault is strictly stronger. -/
theorem c10_hasDefault_stronger (g : Graph) (fuel : Nat) (m : ExportMap) :
    (ExportMap.hasDefault g fuel m = some true ↔
      ∃ v, ExportMap.get g fuel m "default" = some (GetResult.val v)) ∧
    (ExportMap.hasDefault g fuel m = some true →
      ExportMap.has g fuel m "default" = some true) ∧
    ExportMap.has [] 1 c10Map "default" = some true ∧
    ExportMap.hasDefault [] 1 c10Map = some false := by
  refine ⟨?_, ?_, by decide, by decide⟩
  · unfold ExportMap.hasDefault
    cases hg : ExportMap.get g fuel m "default" with
    | none => simp
    | some r => cases r <;> simp
  · intro h
    unfold ExportMap.hasDefault at h
    cases hg : ExportMap.get g fuel m "default" with
    | none => rw [hg] at h; cases h
    | some r =>
      rw [hg] at h
      cases r with
      | undef => simp at h
      | nullValue => simp at h
      | val v =>
        cases fuel with
        | zero => simp [ExportMap.get] at hg
        | succ f =>
          cases hns : lookupStr m.ns "default" with
          | some v0 => simp [ExportMap.has, hns]
          | none =>
            cases hre : lookupStr m.reexports "default" with
            | some re => simp [ExportMap.has, hns, hre]
            | none =>
              exfalso
              simp [ExportMap.get, hns, hre] at hg

/-- Witness for C10: the iff applied at a concrete empty map. -/
theorem c10_witness :
    ExportMap.hasDefault [] 1 ({ path := "z" } : ExportMap) = some true ↔
      ∃ v, ExportMap.get [] 1 ({ path := "z" } : ExportMap) "default" =
        some (GetResult.val v) :=
  (c10_hasDefault_stronger [] 1 { path := "z" }).1

/-! ## C3: same-file star cycles -/

/-- Fixture for C3: build environment of a file a that star-exports
from itself. -/
def c3Env : BuildEnv :=
  { parser := fun _ _ =>
      Except.ok { body := [Stmt.exportAllDeclaration (some "./a") none false] },
    resolve := fun s _ => if s = "./a" then some "a" else none,
    doctrineParse := fun _ => none,
    docStyleParsers := [],
    isEsModuleInterop := false }

/-- Fixture for C3: the declaration record stored for the self
star-export. -/
def c3Decl : DeclMeta := { sourceValue := "./a", importedSpecifiers := [] }

/-- Fixture for C3: the map the builder produces for the self
star-export file. -/
def c3Map : ExportMap :=
  { path := "a",
    dependencies := ["a"],
    imports := [("a", { declarations := [c3Decl] })],
    parseGoal := ParseGoal.Module }

/-- Fixture for C3: the one-file graph of the self star-export. -/
def c3Graph : Graph := [("a", c3Map)]

/-- C3 counterexample: the claim says every one of the four deep
queries skips a star-dependency resolving to a map with the same file
path.  On the self star-export file, has and forEach do not skip it:
had the dependency been skipped, one unit of fuel would suffice (as it
does once the dependency is removed), but instead both recurse into the
same map and exhaust any amount of fuel. -/
theorem c3_counterexample :
    ExportMap.has c3Graph 5 c3Map "x" = none ∧
    ExportMap.has c3Graph 5 ({ c3Map with dependencies := [] }) "x" = some false ∧
    ExportMap.forEach c3Graph 5 c3Map = none ∧
    ExportMap.forEach c3Graph 5 ({ c3Map with dependencies := [] }) = some [] := by
  decide

/-- C3 amended: only hasDeep and get skip a star-dependency whose map
has the same file path; has and forEach have no such guard and recurse
into the same map, so on the self star-export file hasDeep and get
terminate (not found, undefined) while has and forEach diverge (they
return no result at any fuel). -/
theorem c3_cycle_guard_amended :
    ExportMap.parse c3Env "a" "export star from self" = some c3Map ∧
    (∀ fuel, ExportMap.has c3Graph fuel c3Map "x" = none) ∧
    (∀ fuel, ExportMap.forEach c3Graph fuel c3Map = none) ∧
    ExportMap.hasDeep c3Graph 1 c3Map "x" = some { found := false, path := [c3Map] } ∧
    ExportMap.get c3Graph 1 c3Map "x" = some GetResult.undef := by
  refine ⟨by decide, ?_, ?_, by decide, by decide⟩
  · intro fuel
    induction fuel with
    | zero => simp [ExportMap.has]
    | succ f ih =>
      have hdeps : c3Map.dependencies = ["a"] := rfl
      have hlk : lookupG c3Graph "a" = some c3Map := rfl
      simp only [ExportMap.has]
      rw [show (lookupStr c3Map.ns "x").isSome = false from rfl,
        show (lookupStr c3Map.reexports "x").isSome = false from rfl]
      simp only [Bool.false_eq_true, if_false, hdeps]
      rw [if_pos (by decide : ("x" : String) ≠ "default")]
      simp only [hasDependenciesLoop, hlk, ih]
  · intro fuel
    induction fuel with
    | zero => simp [ExportMap.forEach]
    | succ f ih =>
      have hdeps : c3Map.dependencies = ["a"] := rfl
      have hlk : lookupG c3Graph "a" = some c3Map := rfl
      simp only [ExportMap.forEach, hdeps]
      simp only [forEachDependencies, hlk, ih]
      split <;> rfl

/-! ## C5: star-dependency whose resolver returns null -/

/-- Fixture for C5: a map with a single star-dependency whose thunk
returns null (the path resolves to no map in the graph). -/
def c5Map : ExportMap := { path := "m", dependencies := ["gone"] }

/-- Fixture for C5: the same map without the unresolvable
star-dependency. -/
def c5MapNoDep : ExportMap := { path := "m" }

/-- C5 counterexample: the claim says every deep query treats a null
star-dependency as nonexistent, so that the answer is determined solely
by the other edges.  For hasDeep this is false: with the null dependency
present the answer is found true, with it removed (no other edges) the
answer is found false, so the null edge changed the answer. -/
theorem c5_counterexample :
    ExportMap.hasDeep [] 1 c5Map "x" = some { found := true, path := [c5Map] } ∧
    ExportMap.hasDeep [] 1 c5MapNoDep "x" =
      some { found := false, path := [c5MapNoDep] } := by
  decide

/-- C5 amended: has and get skip a star-dependency whose resolver
returns null and continue with the remaining dependencies (the answer
is as if the edge were absent), but hasDeep instead returns found true
at the current map as soon as it meets such a dependency. -/
theorem c5_null_dependency_amended (g : Graph) (fuel : Nat) (m : ExportMap)
    (n p : String) (rest : List String)
    (h1 : lookupStr m.ns n = none)
    (h2 : lookupStr m.reexports n = none)
    (h3 : n ≠ "default")
    (h4 : m.dependencies = p :: rest)
    (h5 : lookupG g p = none) :
    ExportMap.has g (fuel + 1) m n =
      ExportMap.has g (fuel + 1) ({ m with dependencies := rest }) n ∧
    ExportMap.get g (fuel + 1) m n =
      ExportMap.get g (fuel + 1) ({ m with dependencies := rest }) n ∧
    ExportMap.hasDeep g (fuel + 1) m n = some { found := true, path := [m] } := by
  obtain ⟨mp, mns, mre, mdeps, mimp, merr, mpg, mdoc, mmt⟩ := m
  simp only at h1 h2 h4
  subst h4
  refine ⟨?_, ?_, ?_⟩
  · simp only [ExportMap.has, h1, h2]
    simp only [Option.isSome_none, Bool.false_eq_true, if_false, if_pos h3]
    simp [hasDependenciesLoop, h5]
  · simp only [ExportMap.get, h1, h2]
    rw [if_pos h3, if_pos h3]
    simp [getDependenciesLoop, h5]
  · simp only [ExportMap.hasDeep, h1, h2]
    simp only [Option.isSome_none, Bool.false_eq_true, if_false, if_pos h3]
    simp [hasDeepDependenciesLoop, h5]

/-- Witness for C5: the amended behavior at the concrete map with one
null star-dependency. -/
theorem c5_witness :
    ExportMap.has [] 1 c5Map "x" =
      ExportMap.has [] 1 ({ c5Map with dependencies := [] }) "x" ∧
    ExportMap.get [] 1 c5Map "x" =
      ExportMap.get [] 1 ({ c5Map with dependencies := [] }) "x" ∧
    ExportMap.hasDeep [] 1 c5Map "x" = some { found := true, path := [c5Map] } :=
  c5_null_dependency_amended [] 0 c5Map "x" "gone" [] rfl rfl (by decide) rfl rfl

/-! ## C9: the annotation extractor -/

/-- Fixture for C9: a doc parser that succeeds on every comment text,
returning an annotation carrying that text. -/
def c9Parse : String → Option DocAnnot :=
  fun v => some { description := v, tags := [] }

/-- Fixture for C9: two Block comments that both parse. -/
def c9Comments : List Comment := [{ isBlock := true, value := "one" },
  { isBlock := true, value := "two" }]

/-- Fixture for C9: a candidate node carrying the two comments. -/
def c9Node : DocNode := { leadingComments := some c9Comments }

/-- C9 counterexample: the claim says the first comment that parses as
an annotation is attached.  With two Block comments that both parse,
the extractor attaches the annotation of the second (the last parse
overwrites), not of the first. -/
theorem c9_counterexample :
    captureDoc [captureJsDoc c9Parse] [c9Node] =
      some { description := "two", tags := [] } ∧
    c9Parse "one" = some { description := "one", tags := [] } ∧
    ({ description := "two", tags := [] } : DocAnnot) ≠
      { description := "one", tags := [] } := by
  decide

/-- C9 amended: the extractor does try the candidate nodes in order and
stops at the first node that has leading comments (a node without
comments is skipped; the remaining candidates are ignored once one with
comments is met); but among the comments of that node the last Block comment
that parses wins, since each successful parse overwrites the previous
doc. -/
theorem c9_captureDoc_amended (ps : StyleParsers)
    (doctrineParse : String → Option DocAnnot) (n : DocNode)
    (rest : List DocNode) (lc comments : List Comment) (c : Comment)
    (a : DocAnnot)
    (h1 : n.leadingComments = some lc) (h2 : lc ≠ [])
    (h3 : c.isBlock = true) (h4 : doctrineParse c.value = some a) :
    captureDoc ps (n :: rest) = captureDoc ps [n] ∧
    (∀ n2 rest2, n2.leadingComments = none ∨
        n2.leadingComments = some ([] : List Comment) →
      captureDoc ps (n2 :: rest2) = captureDoc ps rest2) ∧
    captureJsDoc doctrineParse (comments ++ [c]) = some a := by
  refine ⟨?_, ?_, ?_⟩
  · cases lc with
    | nil => exact absurd rfl h2
    | cons hd tl => simp [captureDoc, h1]
  · intro n2 rest2 h
    rcases h with h | h <;> simp [captureDoc, h]
  · simp [captureJsDoc, List.foldl_append, h3, h4]

/-- Witness for C9: the last-parse-wins equation at concrete inputs. -/
theorem c9_witness :
    captureJsDoc c9Parse ([] ++ [{ isBlock := true, value := "z" }]) =
      some { description := "z", tags := [] } :=
  (c9_captureDoc_amended [] c9Parse c9Node [] c9Comments []
    { isBlock := true, value := "z" } { description := "z", tags := [] }
    rfl (by decide) rfl rfl).2.2

/-! ## C7: parse returns null exactly for ambiguous scripts -/

/-- Fixture for C7: a structured parse error. -/
def c7Err : ParseError := { message := "bad", lineNumber := 3, column := 1 }

/-- Fixture for C7: an environment whose parser always throws. -/
def c7Env : BuildEnv :=
  { parser := fun _ _ => Except.error c7Err,
    resolve := fun _ _ => none,
    doctrineParse := fun _ => none,
    docStyleParsers := [],
    isEsModuleInterop := false }

/-- C7: when the parser throws, parse returns a non-null map whose
errors list holds exactly the parse error and whose namespace,
re-exports, dependencies and imports are all empty; when the parser
succeeds, parse returns null exactly when the tree is not an
unambiguous module and no dynamic import was found. -/
theorem c7_parse_null_exactly (env : BuildEnv) (path content : String) :
    (∀ e, env.parser path content = Except.error e →
      ExportMap.parse env path content = some { path := path, errors := [e] }) ∧
    (∀ ast, env.parser path content = Except.ok ast →
      (ExportMap.parse env path content = none ↔
        isUnambiguousModule ast = false ∧ ast.dynamicImports = [])) := by
  constructor
  · intro e he
    simp [ExportMap.parse, he]
  · intro ast ha
    simp only [ExportMap.parse, ha]
    split
    · rename_i hcond
      simp only [Bool.and_eq_true, Bool.not_eq_true', Bool.not_eq_false'] at hcond
      simp [hcond.1, List.isEmpty_iff.mp hcond.2]
    · rename_i hcond
      constructor
      · intro h
        cases h
      · intro h
        exact absurd (by simp [h.1, h.2]) hcond

/-- Witness for C7: the error case at a concrete throwing parser. -/
theorem c7_witness :
    ExportMap.parse c7Env "p" "c" = some { path := "p", errors := [c7Err] } :=
  (c7_parse_null_exactly c7Env "p" "c").1 c7Err rfl

/-! ## C8: non-literal dynamic imports and the ambiguous parse goal -/

/-- A fold step that leaves the parseGoal of the map unchanged leaves
the parseGoal of the whole fold unchanged. -/
theorem foldl_parseGoal {β : Type} (f : ExportMap → β → ExportMap)
    (hf : ∀ m b, (f m b).parseGoal = m.parseGoal) :
    ∀ (l : List β) (m : ExportMap), (l.foldl f m).parseGoal = m.parseGoal := by
  intro l
  induction l with
  | nil => intro m; rfl
  | cons hd tl ih =>
    intro m
    rw [List.foldl_cons, ih, hf]

/-- captureDependency never changes the parseGoal. -/
theorem captureDependency_parseGoal (env : BuildEnv) (path : String)
    (m : ExportMap) (source : Option String) (t : Bool) (specs : List String) :
    (captureDependency env path m source t specs).2.parseGoal = m.parseGoal := by
  unfold captureDependency
  split
  · rfl
  · split
    · rfl
    · split <;> rfl

/-- captureDependencyWithSpecifiers never changes the parseGoal. -/
theorem captureDependencyWithSpecifiers_parseGoal (env : BuildEnv)
    (path : String) (m : ExportMap) (source : Option String) (t : Bool)
    (specifiers : List Spec) :
    (captureDependencyWithSpecifiers env path m source t specifiers).2.parseGoal
      = m.parseGoal := by
  unfold captureDependencyWithSpecifiers
  apply captureDependency_parseGoal

/-- processSpecifier never changes the parseGoal. -/
theorem processSpecifier_parseGoal (env : BuildEnv) (path : String)
    (namespaces : List (String × String)) (hasSourceNode : Bool)
    (nsource : Option String) (m : ExportMap) (s : Spec) :
    (processSpecifier env path namespaces hasSourceNode nsource m s).parseGoal
      = m.parseGoal := by
  cases s with
  | exportDefaultSpecifier exported =>
    simp only [processSpecifier]
    split <;> rfl
  | exportNamespaceSpecifier exported => rfl
  | exportAllSpec e sv => rfl
  | exportSpecifier e l =>
    simp only [processSpecifier]
    split <;> rfl
  | importSpecifier a b => rfl
  | importDefaultSpecifier a => rfl
  | importNamespaceSpecifier a b => rfl

/-- processVarDeclarators never changes the parseGoal. -/
theorem processVarDeclarators_parseGoal (env : BuildEnv) (stmtNode : DocNode)
    (ds : List (Pattern × DocNode)) (m : ExportMap) :
    (processVarDeclarators env stmtNode ds m).parseGoal = m.parseGoal := by
  unfold processVarDeclarators
  apply foldl_parseGoal
  intro m0 d
  apply foldl_parseGoal
  intro m1 leaf
  split <;> rfl

/-- One statement step never changes the parseGoal. -/
theorem processStatement_parseGoal (env : BuildEnv) (path : String)
    (st : BuildState) (n : Stmt) :
    (processStatement env path st n).m.parseGoal = st.m.parseGoal := by
  cases n with
  | exportDefaultDeclaration di node => rfl
  | exportAllDeclaration source exported ekt =>
    simp only [processStatement]
    have h1 := captureDependency_parseGoal env path st.m source ekt []
    set cd := captureDependency env path st.m source ekt [] with hcd
    have h2 : (match cd.1 with
        | some p => { cd.2 with dependencies := setAdd cd.2.dependencies p }
        | none => cd.2).parseGoal = cd.2.parseGoal := by
      cases cd.1 <;> rfl
    cases exported with
    | none => rw [h2]; exact h1
    | some name => rw [processSpecifier_parseGoal, h2]; exact h1
  | importDeclaration source ikt specifiers =>
    simp only [processStatement]
    exact captureDependencyWithSpecifiers_parseGoal env path st.m (some source)
      ikt specifiers
  | exportNamedDeclaration source ikt decl specifiers node =>
    simp only [processStatement]
    rw [foldl_parseGoal _
      (fun m b => processSpecifier_parseGoal env path st.namespaces
        source.isSome source m b)]
    have h1 := captureDependencyWithSpecifiers_parseGoal env path st.m source
      ikt specifiers
    cases decl with
    | none => exact h1
    | some nd =>
      cases nd with
      | idDecl name => simpa using h1
      | variableDeclaration ds =>
        rw [processVarDeclarators_parseGoal]
        exact h1
  | otherStatement => rfl

/-- The statement walk never changes the parseGoal. -/
theorem processStatements_parseGoal (env : BuildEnv) (path : String) :
    ∀ (body : List Stmt) (st : BuildState),
      (processStatements env path st body).m.parseGoal = st.m.parseGoal := by
  intro body
  induction body with
  | nil => intro st; rfl
  | cons hd tl ih =>
    intro st
    have : processStatements env path st (hd :: tl)
        = processStatements env path (processStatement env path st hd) tl := rfl
    rw [this, ih, processStatement_parseGoal]

/-- Dynamic-import processing never changes the parseGoal. -/
theorem processDynamicImports_parseGoal (env : BuildEnv) (path : String) :
    ∀ (l : List DynImportArg) (m : ExportMap),
      (processDynamicImports env path m l).parseGoal = m.parseGoal := by
  intro l
  induction l with
  | nil => intro m; rfl
  | cons hd tl ih =>
    intro m
    cases hd with
    | nonLit => exact ih m
    | lit v =>
      simp only [processDynamicImports]
      split
      · exact ih m
      · rw [ih]

/-- Dynamic-import processing over only non-literal call sites leaves
the map unchanged. -/
theorem processDynamicImports_nonlit (env : BuildEnv) (path : String) :
    ∀ (l : List DynImportArg) (m : ExportMap),
      (∀ d ∈ l, d = DynImportArg.nonLit) →
      processDynamicImports env path m l = m := by
  intro l
  induction l with
  | nil => intro m _; rfl
  | cons hd tl ih =>
    intro m h
    have hhd := h hd (List.mem_cons_self hd tl)
    subst hhd
    exact ih m (fun d hd2 => h d (List.mem_cons_of_mem _ hd2))

/-- A body without import or export statements leaves the build state
unchanged. -/
theorem processStatements_noop (env : BuildEnv) (path : String) :
    ∀ (body : List Stmt) (st : BuildState),
      (∀ s ∈ body, isModuleDecl s = false) →
      processStatements env path st body = st := by
  intro body
  induction body with
  | nil => intro st _; rfl
  | cons hd tl ih =>
    intro st h
    have hhd := h hd (List.mem_cons_self hd tl)
    have hstep : processStatement env path st hd = st := by
      cases hd with
      | otherStatement => rfl
      | exportDefaultDeclaration a b => simp [isModuleDecl] at hhd
      | exportAllDeclaration a b c => simp [isModuleDecl] at hhd
      | importDeclaration a b c => simp [isModuleDecl] at hhd
      | exportNamedDeclaration a b c d e => simp [isModuleDecl] at hhd
    have : processStatements env path st (hd :: tl)
        = processStatements env path (processStatement env path st hd) tl := rfl
    rw [this, hstep]
    exact ih st (fun s hs => h s (List.mem_cons_of_mem _ hs))

/-- C8: a file whose only module signal is a dynamic import with a
non-literal source builds to a non-null map whose parseGoal stays
ambiguous and whose imports map is empty; and in general parseGoal is
Module only when the parser succeeded and the authoritative
unambiguous-module check on the tree passed. -/
theorem c8_dynamic_import_ambiguous (env : BuildEnv) (path content : String)
    (ast : Ast)
    (h1 : env.parser path content = Except.ok ast)
    (h2 : isUnambiguousModule ast = false)
    (h3 : ast.dynamicImports ≠ [])
    (h4 : ∀ d ∈ ast.dynamicImports, d = DynImportArg.nonLit) :
    (∃ m, ExportMap.parse env path content = some m ∧
      m.parseGoal = ParseGoal.ambiguous ∧ m.imports = []) ∧
    (∀ (env2 : BuildEnv) (p2 c2 : String) (m2 : ExportMap),
      ExportMap.parse env2 p2 c2 = some m2 →
      m2.parseGoal = ParseGoal.Module →
      ∃ ast2, env2.parser p2 c2 = Except.ok ast2 ∧
        isUnambiguousModule ast2 = true) := by
  have hie : ast.dynamicImports.isEmpty = false := by
    cases hda : ast.dynamicImports with
    | nil => exact absurd hda h3
    | cons a t => rfl
  have hall : ∀ s ∈ ast.body, isModuleDecl s = false := by
    intro s hs
    have h2b : ast.body.any isModuleDecl = false := h2
    simpa using List.any_eq_false.mp h2b s hs
  constructor
  · refine ⟨{ path := path, doc := collectModuleDoc env ast.comments },
      ?_, rfl, rfl⟩
    simp only [ExportMap.parse, h1]
    rw [if_neg (by simp [h2, hie])]
    rw [processDynamicImports_nonlit env path _ _ h4]
    rw [processStatements_noop env path _ _ hall]
    simp [h2]
  · intro env2 p2 c2 m2 hp hpg
    simp only [ExportMap.parse] at hp
    split at hp
    · rename_i e hpar
      cases hp
      simp at hpg
    · rename_i ast2 hpar
      split at hp
      · cases hp
      · cases hp
        refine ⟨ast2, hpar, ?_⟩
        by_contra hu
        have hu2 : isUnambiguousModule ast2 = false := by
          cases hv : isUnambiguousModule ast2
          · rfl
          · exact absurd hv hu
        rw [hu2] at hpg
        simp only [Bool.false_eq_true, if_false] at hpg
        split at hpg
        · rw [processStatements_parseGoal, processDynamicImports_parseGoal] at hpg
          simp at hpg
        · rw [processStatements_parseGoal, processDynamicImports_parseGoal] at hpg
          simp at hpg

/-- Fixture for C8: the tree of a file containing only a dynamic import
with a non-literal argument. -/
def c8Ast : Ast := { body := [], dynamicImports := [DynImportArg.nonLit] }

/-- Fixture for C8: an environment whose parser yields c8Ast. -/
def c8Env : BuildEnv :=
  { parser := fun _ _ => Except.ok c8Ast,
    resolve := fun _ _ => none,
    doctrineParse := fun _ => none,
    docStyleParsers := [],
    isEsModuleInterop := false }

/-- Witness for C8: the concrete non-literal dynamic import file. -/
theorem c8_witness :
    ∃ m, ExportMap.parse c8Env "p" "c" = some m ∧
      m.parseGoal = ParseGoal.ambiguous ∧ m.imports = [] :=
  (c8_dynamic_import_ambiguous c8Env "p" "c" c8Ast rfl rfl (by decide)
    (by decide)).1

/-! ## C6: the resolution cache round trip -/

/-- C6: once a call of the cache entry point has produced a map, calling
again with the same context and unchanged modification time returns that
very cached map with the cache unchanged and only the stat side effect
(no filters, no read, no parse); and whenever the cache holds the null
sentinel for the key, the call returns null immediately with no side
effect at all. -/
theorem c6_cache_roundtrip (fsEnv : FsEnv) (env : BuildEnv)
    (context : ChildCtx) (exportCache : ExportCache) (m : ExportMap)
    (cache1 : ExportCache) (eff : List Effect)
    (h : ExportMap.forCtx fsEnv env context exportCache = (some m, cache1, eff)) :
    ExportMap.forCtx fsEnv env context cache1 =
      (some m, cache1, [Effect.statFs context.path]) ∧
    (∀ cache2, lookupStr cache2 context.cacheKey = some none →
      ExportMap.forCtx fsEnv env context cache2 = (none, cache2, [])) := by
  have hmain : lookupStr cache1 context.cacheKey = some (some m) ∧
      m.mtime = fsEnv.mtime context.path := by
    simp only [ExportMap.forCtx] at h
    split at h
    · simp at h
    · rename_i em hlk
      split at h
      · rename_i hmt
        simp only [Prod.mk.injEq] at h
        obtain ⟨h1, h2, h3⟩ := h
        cases h1
        subst h2
        exact ⟨hlk, hmt⟩
      · -- rebuild after stale hit
        unfold rebuildFor at h
        dsimp only at h
        split at h
        · simp at h
        · split at h
          · simp at h
          · split at h
            · simp at h
            · split at h
              · simp at h
              · rename_i em2 hparse
                simp only [Prod.mk.injEq] at h
                obtain ⟨h1, h2, h3⟩ := h
                cases h1
                subst h2
                refine ⟨?_, rfl⟩
                exact lookupStr_mapSet_self exportCache context.cacheKey _
    · -- miss, rebuild
      unfold rebuildFor at h
      dsimp only at h
      split at h
      · simp at h
      · split at h
        · simp at h
        · split at h
          · simp at h
          · split at h
            · simp at h
            · rename_i em2 hparse
              simp only [Prod.mk.injEq] at h
              obtain ⟨h1, h2, h3⟩ := h
              cases h1
              subst h2
              refine ⟨?_, rfl⟩
              exact lookupStr_mapSet_self exportCache context.cacheKey _
  constructor
  · simp [ExportMap.forCtx, hmain.1, hmain.2]
  · intro cache2 h2
    simp [ExportMap.forCtx, h2]

/-- Fixture for C6: a filesystem with a fixed modification time and
permissive filters. -/
def c6FsEnv : FsEnv :=
  { mtime := fun _ => 7,
    readContent := fun _ => "content",
    hasValidExtension := fun _ => true,
    ignored := fun _ => false,
    isMaybeUnambiguousModule := fun _ => true }

/-- Fixture for C6: an environment whose parser yields a minimal
unambiguous module. -/
def c6Env : BuildEnv :=
  { parser := fun _ _ =>
      Except.ok { body := [Stmt.exportAllDeclaration none none false] },
    resolve := fun _ _ => none,
    doctrineParse := fun _ => none,
    docStyleParsers := [],
    isEsModuleInterop := false }

/-- Fixture for C6: the child context of the cached file. -/
def c6Ctx : ChildCtx := { cacheKey := "k", path := "f" }

/-- Fixture for C6: the map the first call builds and stamps. -/
def c6Map : ExportMap :=
  { path := "f", parseGoal := ParseGoal.Module, mtime := 7 }

/-- Fixture for C6: the cache state after the first call. -/
def c6Cache1 : ExportCache := [("k", some c6Map)]

/-- Fixture for C6: the side effects of the first (building) call. -/
def c6Eff : List Effect :=
  [Effect.statFs "f", Effect.extCheck "f", Effect.ignoreCheck "f",
   Effect.readFile "f", Effect.regexCheck "f", Effect.parseRun "f"]

/-- Witness for C6: after a concrete first call builds the map, the
second call returns it from the cache with only the stat effect. -/
theorem c6_witness :
    ExportMap.forCtx c6FsEnv c6Env c6Ctx c6Cache1 =
      (some c6Map, c6Cache1, [Effect.statFs c6Ctx.path]) :=
  (c6_cache_roundtrip c6FsEnv c6Env c6Ctx [] c6Map c6Cache1 c6Eff
    (by decide)).1
